import Mathlib

/-!
Verification of the kalshibot arbitrage engine against its specification.

This file shallowly embeds the Python modules `src/fees.py`, `src/portfolio.py`,
`src/detector.py`, `src/executor.py` and the storage step of
`src/relationship.py` into Lean.  Prices, balances and fees are modelled as
exact rationals: Python floats produced from two-decimal dollar prices are
exactly representable intent-wise, and the code's `round(x, 8)` step exists
precisely to cancel binary-float drift, so the rational semantics is the
idealised semantics the code computes.  Python `round` (banker's rounding,
round-half-to-even) and `int()` (truncation toward zero) are modelled
faithfully below.
-/

namespace Kalshibot

/-- Python `int(q)`: truncation toward zero. -/
def pyTrunc (q : ℚ) : ℤ := if q < 0 then ⌈q⌉ else ⌊q⌋

/-- Round-half-to-even on a rational, to an integer: the semantics of
Python's `round(x)` (banker's rounding). -/
def roundHalfEven (q : ℚ) : ℤ :=
  let f : ℤ := ⌊q⌋
  let r : ℚ := q - f
  if r < 1/2 then f
  else if 1/2 < r then f + 1
  else if f % 2 = 0 then f else f + 1

/-- Python `round(q, n)`: round-half-to-even at `n` decimal places. -/
def roundTo (q : ℚ) (n : ℕ) : ℚ := (roundHalfEven (q * 10 ^ n) : ℚ) / 10 ^ n

/-- `round(raw_cents, 8)` from `src/fees.py`. -/
def round8 (q : ℚ) : ℚ := roundTo q 8

/-!  ### `src/fees.py`  -/

/-- `taker_fee` from `src/fees.py`:
fee in dollars for `count` contracts at `price`; `0` on degenerate inputs,
otherwise `ceil(round(7 * count * price * (1 - price), 8)) / 100`. -/
def taker_fee (count : ℚ) (price : ℚ) : ℚ :=
  if count ≤ 0 ∨ price ≤ 0 ∨ 1 ≤ price then 0
  else
    let raw_cents := 7 * count * price * (1 - price)
    (⌈round8 raw_cents⌉ : ℚ) / 100

/-- `is_profitable_after_fees` from `src/fees.py`:
`magnitude > (Σ taker_fee(count, p)) / count * safety`, with the
per-contract fee taken to be `0` when `count ≤ 0`. -/
def is_profitable_after_fees (magnitude : ℚ) (count : ℚ) (prices : List ℚ)
    (safety_multiplier : ℚ) : Bool :=
  let total_fees := (prices.map (fun p => taker_fee count p)).sum
  let fee_per_contract := if 0 < count then total_fees / count else 0
  decide (fee_per_contract * safety_multiplier < magnitude)

/-!  ### Data model (§3 of the spec, `src/db.py` rows as seen by the detector)  -/

/-- A market row as the detector reads it: prices may be NULL in the store
(`m.get("yes_ask") or 0` in the source), hence `Option`.  `open_interest`
is `none` when the column is absent; the source reads it with
`get("open_interest", DEFAULT_DEPTH)`. -/
structure Market where
  ticker : String
  yes_ask : Option ℚ
  yes_bid : Option ℚ
  open_interest : Option ℚ
deriving DecidableEq, Repr

/-- Python `x or 0` applied to a nullable price. -/
def orZero : Option ℚ → ℚ
  | none => 0
  | some q => q

/-- One leg of an opportunity: `{ticker, side, price, depth}`. -/
structure Leg where
  ticker : String
  side : String
  price : ℚ
  depth : ℚ
deriving DecidableEq, Repr

/-- An opportunity dict as built by the detector and consumed by the
executor.  `detected_at`/`expires_at` are wall-clock timestamps and are not
modelled; no claim mentions them. -/
structure Opp where
  id : Option ℕ
  relationship_id : ℕ
  signal : String
  magnitude : ℚ
  confidence : ℚ
  score : ℚ
  legs : List Leg
  status : String
deriving DecidableEq, Repr

/-!  ### `src/detector.py`  -/

/-- `MIN_MAGNITUDE` from `src/detector.py`. -/
def MIN_MAGNITUDE : ℚ := 2/100

/-- `SOFT_THRESHOLD` from `src/detector.py`. -/
def SOFT_THRESHOLD : ℚ := 8/100

/-- `DEFAULT_DEPTH` from `src/detector.py`. -/
def DEFAULT_DEPTH : ℚ := 20

/-- `m.get("open_interest", DEFAULT_DEPTH)`: dict `get` with default. -/
def oiD (m : Market) : ℚ := m.open_interest.getD DEFAULT_DEPTH

/-- Python `x or DEFAULT_DEPTH`: a falsy (zero) depth falls back to 20. -/
def orDefaultDepth (q : ℚ) : ℚ := if q = 0 then DEFAULT_DEPTH else q

/-- The markets dict built per relationship in `scan_for_violations`:
`{t: get_market(t) for t in tickers if found}`.  Duplicate tickers collapse
(dict keyed by ticker); `eraseDups` keeps first occurrences like a Python
dict preserves first-insertion order. -/
def buildMarkets (tickers : List String) (dbGet : String → Option Market) :
    List (String × Market) :=
  tickers.eraseDups.filterMap (fun t => (dbGet t).map (fun m => (t, m)))

/-- `markets.get(t)` on the per-relationship dict. -/
def mget (ms : List (String × Market)) (t : String) : Option Market :=
  ms.lookup t

/-- `_check_subset` from `src/detector.py`: tickers[0] is read as the
subset, tickers[1] as the superset; violation when
`subset.yes_ask - superset.yes_bid > MIN_MAGNITUDE` and the spread
survives the fee hurdle.  On fewer than two tickers the source raises
`IndexError` (unreachable: normalised SUBSET rows always carry two
tickers); this is modelled as the empty emission. -/
def _check_subset (relId : ℕ) (tickers : List String)
    (ms : List (String × Market)) (confidence safety : ℚ) : List Opp :=
  match tickers with
  | subset_ticker :: superset_ticker :: _ =>
    match mget ms subset_ticker, mget ms superset_ticker with
    | some subset, some superset =>
      let sub_ask := orZero subset.yes_ask
      let sup_bid := orZero superset.yes_bid
      let magnitude := sub_ask - sup_bid
      if magnitude ≤ MIN_MAGNITUDE then []
      else
        let prices := [sub_ask, sup_bid]
        if ¬ is_profitable_after_fees magnitude 1 prices safety then []
        else
          let depth := orDefaultDepth (min (oiD subset) (oiD superset))
          let liquidity_factor := min (depth / 50) 1
          let score := magnitude * confidence * liquidity_factor
          [{ id := none
             relationship_id := relId
             signal := "BUY_SUPERSET_SELL_SUBSET"
             magnitude := roundTo magnitude 4
             confidence := confidence
             score := roundTo score 6
             legs := [
               { ticker := superset_ticker, side := "buy", price := sup_bid, depth := depth },
               { ticker := subset_ticker, side := "sell", price := sub_ask, depth := depth }]
             status := "DETECTED" }]
    | _, _ => []
  | _ => []

/-- One adjacent pair of `_check_threshold`'s loop body. -/
def _check_threshold_pair (relId : ℕ) (lower_t higher_t : String)
    (ms : List (String × Market)) (confidence safety : ℚ) : List Opp :=
  match mget ms lower_t, mget ms higher_t with
  | some lower, some higher =>
    let lower_bid := orZero lower.yes_bid
    let higher_ask := orZero higher.yes_ask
    let magnitude := higher_ask - lower_bid
    if magnitude ≤ MIN_MAGNITUDE then []
    else
      let prices := [lower_bid, higher_ask]
      if ¬ is_profitable_after_fees magnitude 1 prices safety then []
      else
        let depth := orDefaultDepth (min (oiD lower) (oiD higher))
        let liquidity_factor := min (depth / 50) 1
        let score := magnitude * confidence * liquidity_factor
        [{ id := none
           relationship_id := relId
           signal := "BUY_" ++ lower_t ++ "_SELL_" ++ higher_t
           magnitude := roundTo magnitude 4
           confidence := confidence
           score := roundTo score 6
           legs := [
             { ticker := lower_t, side := "buy", price := lower_bid, depth := depth },
             { ticker := higher_t, side := "sell", price := higher_ask, depth := depth }]
           status := "DETECTED" }]
  | _, _ => []

/-- `_check_threshold` from `src/detector.py`: checks every adjacent pair
of the ascending ticker sequence. -/
def _check_threshold (relId : ℕ) (tickers : List String)
    (ms : List (String × Market)) (confidence safety : ℚ) : List Opp :=
  match tickers with
  | lower_t :: higher_t :: rest =>
    _check_threshold_pair relId lower_t higher_t ms confidence safety ++
      _check_threshold relId (higher_t :: rest) ms confidence safety
  | _ => []

/-- `_check_partition` from `src/detector.py`: requires every member
present; buy branch when `1 - Σ asks > MIN_MAGNITUDE`, sell branch when
`Σ bids - 1 > MIN_MAGNITUDE`. -/
def _check_partition (relId : ℕ) (tickers : List String)
    (ms : List (String × Market)) (confidence safety : ℚ) : List Opp :=
  let available := tickers.filterMap (fun t => (mget ms t).map (fun m => (t, m)))
  if available.length < tickers.length then []
  else
    let total_ask := (available.map (fun tm => orZero tm.2.yes_ask)).sum
    let total_bid := (available.map (fun tm => orZero tm.2.yes_bid)).sum
    let buy_magnitude := 1 - total_ask
    let buyOpps :=
      if MIN_MAGNITUDE < buy_magnitude then
        let prices := available.map (fun tm => orZero tm.2.yes_ask)
        if is_profitable_after_fees buy_magnitude 1 prices safety then
          let depth := ((available.map (fun tm => orDefaultDepth (oiD tm.2))).min?).getD 0
          let liquidity_factor := min (depth / 50) 1
          let score := buy_magnitude * confidence * liquidity_factor
          [{ id := none
             relationship_id := relId
             signal := "BUY_ALL_PARTITION"
             magnitude := roundTo buy_magnitude 4
             confidence := confidence
             score := roundTo score 6
             legs := available.map (fun tm =>
               { ticker := tm.1, side := "buy", price := orZero tm.2.yes_ask, depth := depth })
             status := "DETECTED" }]
        else []
      else []
    let sell_magnitude := total_bid - 1
    let sellOpps :=
      if MIN_MAGNITUDE < sell_magnitude then
        let prices := available.map (fun tm => orZero tm.2.yes_bid)
        if is_profitable_after_fees sell_magnitude 1 prices safety then
          let depth := ((available.map (fun tm => orDefaultDepth (oiD tm.2))).min?).getD 0
          let liquidity_factor := min (depth / 50) 1
          let score := sell_magnitude * confidence * liquidity_factor
          [{ id := none
             relationship_id := relId
             signal := "SELL_ALL_PARTITION"
             magnitude := roundTo sell_magnitude 4
             confidence := confidence
             score := roundTo score 6
             legs := available.map (fun tm =>
               { ticker := tm.1, side := "sell", price := orZero tm.2.yes_bid, depth := depth })
             status := "DETECTED" }]
        else []
      else []
    buyOpps ++ sellOpps

/-- `_check_implication` from `src/detector.py`: soft threshold, and only
traded at confidence ≥ 0.7. -/
def _check_implication (relId : ℕ) (tickers : List String)
    (ms : List (String × Market)) (confidence safety : ℚ) : List Opp :=
  match tickers with
  | if_ticker :: then_ticker :: _ =>
    match mget ms if_ticker, mget ms then_ticker with
    | some if_market, some then_market =>
      let if_bid := orZero if_market.yes_bid
      let then_ask := orZero then_market.yes_ask
      let magnitude := if_bid - then_ask
      if magnitude ≤ SOFT_THRESHOLD then []
      else if confidence < 7/10 then []
      else
        let prices := [if_bid, then_ask]
        if ¬ is_profitable_after_fees magnitude 1 prices safety then []
        else
          let depth := orDefaultDepth (min (oiD if_market) (oiD then_market))
          let liquidity_factor := min (depth / 50) 1
          let score := magnitude * confidence * liquidity_factor
          [{ id := none
             relationship_id := relId
             signal := "BUY_THEN_SELL_IF"
             magnitude := roundTo magnitude 4
             confidence := confidence
             score := roundTo score 6
             legs := [
               { ticker := then_ticker, side := "buy", price := then_ask, depth := depth },
               { ticker := if_ticker, side := "sell", price := if_bid, depth := depth }]
             status := "DETECTED" }]
    | _, _ => []
  | _ => []

/-- A relationship row as read back by the detector:
`type`, JSON-decoded `tickers`, and `rel.get("confidence", 0.5)`. -/
structure Rel where
  id : ℕ
  type : String
  tickers : List String
  confidence : Option ℚ
deriving DecidableEq, Repr

/-- The store as `scan_for_violations` sees it: the active relationships in
row order, the markets table, and the next serial id
`insert_opportunity` will hand out. -/
structure DetectorDB where
  relationships : List Rel
  market : String → Option Market
  nextOppId : ℕ

/-- The variant dispatch of `scan_for_violations`: unknown types are
skipped. -/
def dispatchCheck (rel : Rel) (ms : List (String × Market))
    (confidence safety : ℚ) : List Opp :=
  if rel.type = "SUBSET" then _check_subset rel.id rel.tickers ms confidence safety
  else if rel.type = "THRESHOLD" then _check_threshold rel.id rel.tickers ms confidence safety
  else if rel.type = "PARTITION" then _check_partition rel.id rel.tickers ms confidence safety
  else if rel.type = "IMPLICATION" then _check_implication rel.id rel.tickers ms confidence safety
  else []

/-- The per-relationship body of `scan_for_violations`: build the price
dict, skip when fewer than two markets resolve, run the variant check and
keep the violations whose score reaches `min_score`. -/
def scanRel (market : String → Option Market) (min_score safety : ℚ)
    (rel : Rel) : List Opp :=
  let ms := buildMarkets rel.tickers market
  if ms.length < 2 then []
  else (dispatchCheck rel ms (rel.confidence.getD (1/2)) safety).filter
    (fun o => min_score ≤ o.score)

/-- The inner persistence loop of `scan_for_violations`: each surviving
opportunity is inserted (receiving the next serial id) and appended to the
returned list. -/
def scanStep (market : String → Option Market) (min_score safety : ℚ)
    (st : List Opp × ℕ) (rel : Rel) : List Opp × ℕ :=
  (scanRel market min_score safety rel).foldl
    (fun st o => (st.1 ++ [{o with id := some st.2}], st.2 + 1)) st

/-- `scan_for_violations` from `src/detector.py`: iterate the active
relationships in row order, emit each one's surviving violations in order,
and return the accumulated list.  (No reordering happens after emission.) -/
def scan_for_violations (db : DetectorDB) (min_score fee_safety_multiplier : ℚ) :
    List Opp :=
  (db.relationships.foldl (scanStep db.market min_score fee_safety_multiplier)
    ([], db.nextOppId)).1

/-!  ### `src/relationship.py`: proposal normalisation and storage  -/

/-- A raw relationship proposal from the inference oracle, after JSON
parsing: the fields `_normalise_relationship` reads. -/
structure RawProposal where
  type : String
  subset_ticker : Option String
  superset_ticker : Option String
  tickers_ascending : List String
  tickers : List String
  if_ticker : Option String
  then_ticker : Option String
  estimated_conditional_prob : Option ℚ
  confidence : Option ℚ
  reasoning : String
deriving DecidableEq, Repr

/-- A normalised relationship dict ready for the store. -/
structure NormRel where
  type : String
  tickers : List String
  constraint_description : String
  constraint_formula : String
  confidence : ℚ
  reasoning : String
deriving DecidableEq, Repr

/-- Python truthiness on an optional string: `None` and `""` are falsy. -/
def strTruthy : Option String → Option String
  | none => none
  | some s => if s = "" then none else some s

/-- ASCII uppercase of one character. -/
def charUpper (c : Char) : Char :=
  if 97 ≤ c.toNat ∧ c.toNat ≤ 122 then Char.ofNat (c.toNat - 32) else c

/-- Python `str.upper()` (the variant tags are ASCII). -/
def pyUpper (s : String) : String := ⟨s.data.map charUpper⟩

/-- `_normalise_relationship` from `src/relationship.py`: convert a raw
oracle proposal to the store schema, `none` when malformed.  For SUBSET the
tickers sequence is built as `[subset, superset]`. -/
def _normalise_relationship (raw : RawProposal) : Option NormRel :=
  let rel_type := pyUpper raw.type
  let confidence := raw.confidence.getD (1/2)
  if rel_type = "SUBSET" then
    match strTruthy raw.subset_ticker, strTruthy raw.superset_ticker with
    | some subset, some superset =>
      some { type := "SUBSET"
             tickers := [subset, superset]
             constraint_description := s!"P({subset}) <= P({superset})"
             constraint_formula := s!"P({subset}) <= P({superset})"
             confidence := confidence
             reasoning := raw.reasoning }
    | _, _ => none
  else if rel_type = "THRESHOLD" then
    let tickers := raw.tickers_ascending
    if tickers.length < 2 then none
    else
      let desc := String.intercalate " >= " (tickers.map (fun t => s!"P({t})"))
      some { type := "THRESHOLD", tickers := tickers,
             constraint_description := desc, constraint_formula := desc,
             confidence := confidence, reasoning := raw.reasoning }
  else if rel_type = "PARTITION" then
    let tickers := raw.tickers
    if tickers.length < 2 then none
    else
      let joined := String.intercalate ", " tickers
      some { type := "PARTITION", tickers := tickers,
             constraint_description := s!"SUM(P({joined})) ≈ 1.00",
             constraint_formula := "SUM_EQUALS_1",
             confidence := confidence, reasoning := raw.reasoning }
  else if rel_type = "IMPLICATION" then
    match strTruthy raw.if_ticker, strTruthy raw.then_ticker with
    | some if_t, some then_t =>
      let cond_prob := raw.estimated_conditional_prob.getD (8/10)
      let p := toString cond_prob
      some { type := "IMPLICATION"
             tickers := [if_t, then_t]
             constraint_description := s!"P({if_t}) implies P({then_t}) with prob ~{p}"
             constraint_formula := s!"IMPLIES({if_t},{then_t},{p})"
             confidence := confidence
             reasoning := raw.reasoning }
    | _, _ => none
  else none

/-- Byte-wise (code point) comparison of strings, the order Python uses to
sort ticker strings. -/
def charListLe : List Char → List Char → Bool
  | [], _ => true
  | _ :: _, [] => false
  | a :: as, b :: bs =>
    if a.toNat < b.toNat then true
    else if b.toNat < a.toNat then false
    else charListLe as bs

/-- `a <= b` on strings by code points. -/
def strLe (a b : String) : Bool := charListLe a.data b.data

/-- Insert into an ascending list, keeping it ascending. -/
def insStr (x : String) : List String → List String
  | [] => [x]
  | y :: ys => if strLe x y then x :: y :: ys else y :: insStr x ys

/-- Python `sorted` on a list of strings (ascending, by code points). -/
def pySortedStr (l : List String) : List String := l.foldr insStr []

/-- The storage step of `discover_relationships` (src/relationship.py,
lines 366-388) applied to one proposal: the row written to the
relationships store carries `sorted(normalised["tickers"])` — both the
dedup lookup and the inserted row use the sorted sequence. -/
def stored_relationship (raw : RawProposal) : Option NormRel :=
  (_normalise_relationship raw).map
    (fun n => { n with tickers := pySortedStr n.tickers })

/-!  ### `src/portfolio.py`  -/

/-- The risk-limit configuration of `Portfolio.__init__`. -/
structure PortfolioCfg where
  max_risk_per_trade_pct : ℚ
  max_daily_loss : ℚ
  max_open_positions : ℤ
  max_contracts_per_trade : ℤ
  fee_safety_multiplier : ℚ
deriving DecidableEq, Repr

/-- The mutable portfolio state (`_balance`, `_daily_pnl`,
`_open_positions`, `_kill_switch`). -/
structure PortfolioState where
  balance : ℚ
  daily_pnl : ℚ
  open_positions : ℤ
  kill_switch : Bool
deriving DecidableEq, Repr

/-- `can_trade` from `src/portfolio.py`: false on kill switch, on
`daily_pnl <= -max_daily_loss`, or on
`open_positions >= max_open_positions`. -/
def can_trade (cfg : PortfolioCfg) (st : PortfolioState) : Bool :=
  if st.kill_switch then false
  else if st.daily_pnl ≤ -cfg.max_daily_loss then false
  else if cfg.max_open_positions ≤ st.open_positions then false
  else true

/-- `calculate_position_size` from `src/portfolio.py`.  Python's
`int(...)` truncates toward zero, `min(list)` of an empty depth list is
replaced by 0, and the result is clamped to be non-negative.  (Inside the
`else` branch `magnitude > 0` always holds, so the redundant inner
conditional of the source collapses.) -/
def calculate_position_size (cfg : PortfolioCfg) (st : PortfolioState)
    (opp : Opp) : ℚ :=
  if opp.magnitude ≤ 0 then 0
  else
    let max_risk := st.balance * cfg.max_risk_per_trade_pct
    let risk_based : ℤ := pyTrunc (max_risk / opp.magnitude)
    let depths := opp.legs.map (fun l => l.depth)
    let min_depth : ℚ := match depths with
      | [] => 0
      | d :: ds => ds.foldl min d
    let count : ℚ := min (min (risk_based : ℚ) min_depth)
      (cfg.max_contracts_per_trade : ℚ)
    max count 0

/-!  ### `src/executor.py`  -/

/-- A trade row as written by `_place_leg`. -/
structure Trade where
  opportunity_id : Option ℕ
  ticker : String
  side : String
  action : String
  price : ℚ
  count : ℚ
  order_id : String
  order_status : String
  filled_count : ℚ
  fees : ℚ
deriving DecidableEq, Repr

/-- The observable side effects of one `execute_opportunity` call: trade
rows inserted, opportunity status transitions written, order ids sent to
the exchange, and order ids cancelled. -/
structure ExecState where
  trades : List Trade
  statusUpdates : List (ℕ × String)
  placedOrders : List String
  cancelled : List String
deriving DecidableEq, Repr

/-- The state before any side effect. -/
def ExecState.empty : ExecState := ⟨[], [], [], []⟩

/-- The exchange as the executor observes it in live mode: the outcome of
`place_order` (`none` models a thrown exception), the `status` field of
the placement response, the status a later `get_order` poll reports
(`none` models a failed poll), and the reported `filled_count`. -/
structure Exchange where
  placeResult : Leg → Option String
  placeStatus : Leg → String
  finalStatus : String → Option String
  filledCount : String → Option ℚ

/-- `db.update_opportunity_status`, guarded by `if opp_id:` in the
source. -/
def recordStatus (s : ExecState) (oppId : Option ℕ) (st : String) : ExecState :=
  match oppId with
  | some i => { s with statusUpdates := s.statusUpdates ++ [(i, st)] }
  | none => s

/-- `db.insert_trade`. -/
def insertTrade (s : ExecState) (t : Trade) : ExecState :=
  { s with trades := s.trades ++ [t] }

/-- `_cancel_order`: cancel on the exchange and mark the trade row
cancelled. -/
def cancelOrder (s : ExecState) (oid : String) : ExecState :=
  { s with
    cancelled := s.cancelled ++ [oid]
    trades := s.trades.map (fun t =>
      if t.order_id = oid then { t with order_status := "cancelled" } else t) }

/-- `_wait_for_fill`: `some report` when the order reaches "filled" within
the window, `none` on cancellation, expiry or timeout.  The report carries
the optional `filled_count` field. -/
def _wait_for_fill (ex : Exchange) (oid : String) : Option (Option ℚ) :=
  if ex.finalStatus oid = some "filled" then some (ex.filledCount oid) else none

/-- `_check_order_status`: the polled status, `none` when the poll
raised. -/
def _check_order_status (ex : Exchange) (oid : String) : Option String :=
  ex.finalStatus oid

/-- `_place_leg` from `src/executor.py`.  Both sides trade the YES
contract; dry-run writes a synthetic row (order id `DRY-{ms-timestamp}` —
the wall-clock suffix is not modelled) and live mode submits the order
(price in cents is derived from `price` and not separately tracked), then
writes the pending row.  Returns the trade row, or `none` when
`place_order` raised (in which case no row is written). -/
def _place_leg (ex : Exchange) (dryRun : Bool) (opp : Opp) (leg : Leg)
    (count : ℚ) (s : ExecState) : Option Trade × ExecState :=
  let action := if leg.side = "buy" then "buy" else "sell"
  let contract_side := "yes"
  if dryRun then
    let fee := taker_fee count leg.price
    let trade : Trade :=
      { opportunity_id := opp.id, ticker := leg.ticker, side := contract_side
        action := action, price := leg.price, count := count
        order_id := "DRY", order_status := "dry_run"
        filled_count := count, fees := fee }
    (some trade, insertTrade s trade)
  else
    match ex.placeResult leg with
    | none => (none, s)
    | some oid =>
      let trade : Trade :=
        { opportunity_id := opp.id, ticker := leg.ticker, side := contract_side
          action := action, price := leg.price, count := count
          order_id := oid, order_status := ex.placeStatus leg
          filled_count := 0, fees := taker_fee count leg.price }
      (some trade,
        insertTrade { s with placedOrders := s.placedOrders ++ [oid] } trade)

/-- The tail of `_execute_two_leg` from the leg-2 price adjustment on:
re-price leg 2 one cent more aggressively, place it sized to
`filled_count`, and in live mode wait for its fill (cancelling on
timeout). -/
def _two_leg_rest (ex : Exchange) (dryRun : Bool) (opp : Opp) (leg2 : Leg)
    (filled_count : ℚ) (s : ExecState) : Bool × ExecState :=
  let price_cents : ℤ := pyTrunc (leg2.price * 100)
  let price_cents : ℤ :=
    if leg2.side = "buy" then price_cents + 1 else max 1 (price_cents - 1)
  let leg2_adjusted : Leg := { leg2 with price := (price_cents : ℚ) / 100 }
  match _place_leg ex dryRun opp leg2_adjusted filled_count s with
  | (none, s2) => (false, s2)
  | (some order2, s2) =>
    if dryRun then (true, s2)
    else
      match _wait_for_fill ex order2.order_id with
      | none => (false, cancelOrder s2 order2.order_id)
      | some _ => (true, s2)

/-- `_execute_two_leg` from `src/executor.py`: place leg 1, wait for its
fill (live), then run the leg-2 tail sized to the reported fill. -/
def _execute_two_leg (ex : Exchange) (dryRun : Bool) (opp : Opp)
    (legs : List Leg) (count : ℚ) (s : ExecState) : Bool × ExecState :=
  match legs with
  | leg1 :: leg2 :: _ =>
    match _place_leg ex dryRun opp leg1 count s with
    | (none, s1) => (false, s1)
    | (some order1, s1) =>
      if dryRun then _two_leg_rest ex dryRun opp leg2 count s1
      else
        match _wait_for_fill ex order1.order_id with
        | none => (false, cancelOrder s1 order1.order_id)
        | some report =>
          _two_leg_rest ex dryRun opp leg2 (report.getD count) s1
  | _ => (false, s)

/-- `_execute_multi_leg` from `src/executor.py`: place every leg,
collecting only the successful placements into `orders`; fail when none
placed; in dry-run succeed; otherwise poll each placed order, cancel the
unfilled ones, and succeed iff every *placed* order reports "filled". -/
def _execute_multi_leg (ex : Exchange) (dryRun : Bool) (opp : Opp)
    (legs : List Leg) (count : ℚ) (s : ExecState) : Bool × ExecState :=
  let placed := legs.foldl
    (fun (acc : List Trade × ExecState) leg =>
      match _place_leg ex dryRun opp leg count acc.2 with
      | (some t, s2) => (acc.1 ++ [t], s2)
      | (none, s2) => (acc.1, s2)) ([], s)
  let orders := placed.1
  let s := placed.2
  if orders.isEmpty then (false, s)
  else if dryRun then (true, s)
  else
    let filled := orders.filter
      (fun o => _check_order_status ex o.order_id = some "filled")
    let unfilled := orders.filter
      (fun o => ¬ (_check_order_status ex o.order_id = some "filled"))
    let s := unfilled.foldl (fun s o => cancelOrder s o.order_id) s
    (decide (filled.length = orders.length), s)

/-- `execute_opportunity` from `src/executor.py`: refuse on empty legs, on
a failing `can_trade`, or on a non-positive position size — all before any
side effect; otherwise record EXECUTING, run the branch picked by the
signal, and record FILLED or FAILED.  (The stored status of the
opportunity is never consulted.) -/
def execute_opportunity (ex : Exchange) (dryRun : Bool) (cfg : PortfolioCfg)
    (pst : PortfolioState) (opp : Opp) : Bool × ExecState :=
  let s := ExecState.empty
  if opp.legs.isEmpty then (false, s)
  else if ¬ can_trade cfg pst then (false, s)
  else
    let count := calculate_position_size cfg pst opp
    if count ≤ 0 then (false, s)
    else
      let s := recordStatus s opp.id "EXECUTING"
      let res :=
        if opp.signal = "BUY_ALL_PARTITION" ∨ opp.signal = "SELL_ALL_PARTITION"
        then _execute_multi_leg ex dryRun opp opp.legs count s
        else _execute_two_leg ex dryRun opp opp.legs count s
      let s := recordStatus res.2 opp.id (if res.1 then "FILLED" else "FAILED")
      (res.1, s)

/-!  ## Helper lemmas  -/

/-- When the cent-scale value times `10^8` is an integer, the 8-place
rounding is exact. -/
lemma round8_of_mul_eq_int (q : ℚ) (m : ℤ) (h : q * 10 ^ 8 = (m : ℚ)) :
    round8 q = q := by
  have hq : q = (m : ℚ) / 10 ^ 8 := by
    rw [eq_div_iff (by norm_num : ((10 : ℚ) ^ 8) ≠ 0), h]
  have hr : roundHalfEven (q * 10 ^ 8) = m := by
    rw [h]
    norm_num [roundHalfEven, Int.floor_intCast]
  rw [round8, roundTo, hr, ← hq]

/-- Evaluation scheme for `taker_fee` on non-degenerate inputs whose
cent-scale value has at most 8 decimal places. -/
lemma taker_fee_eval (c p : ℚ) (m n : ℤ)
    (h1 : ¬(c ≤ 0 ∨ p ≤ 0 ∨ 1 ≤ p))
    (hm : 7 * c * p * (1 - p) * 10 ^ 8 = (m : ℚ))
    (hn : ⌈7 * c * p * (1 - p)⌉ = n) :
    taker_fee c p = (n : ℚ) / 100 := by
  simp only [taker_fee]
  rw [if_neg h1, round8_of_mul_eq_int _ m hm, hn]

lemma tf_1_50 : taker_fee 1 (50/100) = 2/100 := by
  rw [taker_fee_eval 1 (50/100) 175000000 2 (by norm_num) (by norm_num)
    (Int.ceil_eq_iff.mpr (by norm_num))]
  norm_num

lemma tf_100_50 : taker_fee 100 (50/100) = 175/100 := by
  rw [taker_fee_eval 100 (50/100) 17500000000 175 (by norm_num) (by norm_num)
    (Int.ceil_eq_iff.mpr (by norm_num))]
  norm_num

lemma tf_1_05 : taker_fee 1 (5/100) = 1/100 := by
  rw [taker_fee_eval 1 (5/100) 33250000 1 (by norm_num) (by norm_num)
    (Int.ceil_eq_iff.mpr (by norm_num))]
  norm_num

lemma tf_1_65 : taker_fee 1 (65/100) = 2/100 := by
  rw [taker_fee_eval 1 (65/100) 159250000 2 (by norm_num) (by norm_num)
    (Int.ceil_eq_iff.mpr (by norm_num))]
  norm_num

lemma tf_1_30 : taker_fee 1 (30/100) = 2/100 := by
  rw [taker_fee_eval 1 (30/100) 147000000 2 (by norm_num) (by norm_num)
    (Int.ceil_eq_iff.mpr (by norm_num))]
  norm_num

lemma tf_1_20 : taker_fee 1 (20/100) = 2/100 := by
  rw [taker_fee_eval 1 (20/100) 112000000 2 (by norm_num) (by norm_num)
    (Int.ceil_eq_iff.mpr (by norm_num))]
  norm_num

lemma tf_1_40 : taker_fee 1 (40/100) = 2/100 := by
  rw [taker_fee_eval 1 (40/100) 168000000 2 (by norm_num) (by norm_num)
    (Int.ceil_eq_iff.mpr (by norm_num))]
  norm_num

lemma taker_fee_degenerate (C P : ℚ) (h : C ≤ 0 ∨ P ≤ 0 ∨ 1 ≤ P) :
    taker_fee C P = 0 := by
  simp only [taker_fee]
  rw [if_pos h]

/-!  ## Claims  -/

/-- C6: `taker_fee` follows the published schedule — zero on degenerate
inputs, otherwise `ceil` of the 8-place-rounded cent value divided by 100 —
and matches the five seed values of the spec. -/
theorem taker_fee_schedule :
    (∀ C P : ℚ, (C ≤ 0 ∨ P ≤ 0 ∨ 1 ≤ P) → taker_fee C P = 0) ∧
    (∀ C P : ℚ, 0 < C → 0 < P → P < 1 →
      taker_fee C P = (⌈round8 (7 * C * P * (1 - P))⌉ : ℚ) / 100) ∧
    taker_fee 1 (50/100) = 2/100 ∧
    taker_fee 100 (50/100) = 175/100 ∧
    taker_fee 1 (5/100) = 1/100 ∧
    taker_fee 0 (50/100) = 0 ∧
    taker_fee 10 1 = 0 := by
  refine ⟨taker_fee_degenerate, ?_, tf_1_50, tf_100_50, tf_1_05,
    taker_fee_degenerate 0 (50/100) (Or.inl le_rfl),
    taker_fee_degenerate 10 1 (Or.inr (Or.inr le_rfl))⟩
  intro C P hC hP hP1
  simp only [taker_fee]
  rw [if_neg (by push_neg; exact ⟨hC, hP, hP1⟩)]

/-- C6 witness: the schedule clauses instantiated at concrete inputs. -/
theorem taker_fee_schedule_witness :
    taker_fee 0 (50/100) = 0 ∧
    taker_fee 1 (50/100) = (⌈round8 (7 * 1 * (50/100) * (1 - 50/100))⌉ : ℚ) / 100 := by
  exact ⟨taker_fee_schedule.1 0 (50/100) (Or.inl le_rfl),
    taker_fee_schedule.2.1 1 (50/100) (by norm_num) (by norm_num) (by norm_num)⟩

/-- C10: with a non-positive contract count the fee hurdle degenerates to
zero, so `is_profitable_after_fees` holds exactly when the magnitude is
positive, whatever the leg prices and safety multiplier. -/
theorem nonpos_count_profitable_iff (magnitude count : ℚ) (prices : List ℚ)
    (safety : ℚ) (h : count ≤ 0) :
    is_profitable_after_fees magnitude count prices safety = true ↔ 0 < magnitude := by
  have hfees : (prices.map (fun p => taker_fee count p)).sum = 0 := by
    apply List.sum_eq_zero
    intro x hx
    rcases List.mem_map.mp hx with ⟨p, _, hp⟩
    rw [← hp, taker_fee_degenerate count p (Or.inl h)]
  simp only [is_profitable_after_fees, hfees]
  rw [if_neg (by exact fun h' => absurd h (not_le.mpr h'))]
  simp

/-- C10 witness: a one-cent spread with count 0 passes the profitability
check at any prices and a huge safety multiplier. -/
theorem nonpos_count_profitable_iff_witness :
    (0 : ℚ) ≤ 0 ∧
      (is_profitable_after_fees (1/100) 0 [1/2] 100 = true ↔ (0 : ℚ) < 1/100) :=
  ⟨le_rfl, nonpos_count_profitable_iff (1/100) 0 [1/2] 100 le_rfl⟩

lemma pyTrunc_intCast (n : ℤ) : pyTrunc (n : ℚ) = n := by
  simp [pyTrunc, Int.ceil_intCast, Int.floor_intCast]

lemma pyTrunc_eval (q : ℚ) (n : ℤ) (h : q = (n : ℚ)) : pyTrunc q = n := by
  rw [h, pyTrunc_intCast]

lemma pyTrunc_eq_floor {q : ℚ} (h : 0 ≤ q) : pyTrunc q = ⌊q⌋ := by
  rw [pyTrunc, if_neg (not_lt.mpr h)]

lemma pyTrunc_nonpos {q : ℚ} (h : q < 0) : pyTrunc q ≤ 0 := by
  rw [pyTrunc, if_pos h]
  exact Int.ceil_le.mpr (by exact_mod_cast h.le)

lemma pyTrunc_mono {q r : ℚ} (h : q ≤ r) : pyTrunc q ≤ pyTrunc r := by
  rcases lt_or_le q 0 with hq | hq
  · rcases lt_or_le r 0 with hr | hr
    · rw [pyTrunc, if_pos hq, pyTrunc, if_pos hr]
      exact Int.ceil_le_ceil h
    · rw [pyTrunc, if_pos hq, pyTrunc, if_neg (not_lt.mpr hr)]
      exact le_trans (Int.ceil_le.mpr (by exact_mod_cast hq.le))
        (Int.le_floor.mpr (by exact_mod_cast hr))
  · rw [pyTrunc_eq_floor hq, pyTrunc_eq_floor (le_trans hq h)]
    exact Int.floor_le_floor h

/-- The minimum leg depth, as the spec's sizing formula names it (`0` for
an empty leg list, as in the source). -/
def minLegDepth (legs : List Leg) : ℚ :=
  match legs.map (fun l => l.depth) with
  | [] => 0
  | d :: ds => ds.foldl min d

/-- Shared concrete configuration: the default risk limits of
`Portfolio.__init__` (2% risk, $50 daily loss, 10 positions, 50 contracts,
safety 2). -/
def cfg0 : PortfolioCfg :=
  { max_risk_per_trade_pct := 1/50, max_daily_loss := 50
    max_open_positions := 10, max_contracts_per_trade := 50
    fee_safety_multiplier := 2 }

/-- Shared concrete portfolio state: $100 balance, flat P&L, no open
positions, kill switch off. -/
def pst0 : PortfolioState :=
  { balance := 100, daily_pnl := 0, open_positions := 0, kill_switch := false }

/-- The two-leg SUBSET opportunity of the spec's end-to-end scenario:
magnitude 0.10, minimum leg depth 20. -/
def oppC8 : Opp :=
  { id := some 1, relationship_id := 1, signal := "BUY_SUPERSET_SELL_SUBSET"
    magnitude := 1/10, confidence := 9/10, score := 1/20
    legs := [{ ticker := "SUP", side := "buy", price := 1/2, depth := 20 },
             { ticker := "SUB", side := "sell", price := 13/20, depth := 30 }]
    status := "DETECTED" }

/-- C8: for a positive magnitude the position size is exactly
`max(0, min(⌊balance·max_risk_pct/magnitude⌋, min leg depth, cap))`, and
the spec's end-to-end scenario sizes to 20 contracts. -/
theorem position_size_formula :
    (∀ (cfg : PortfolioCfg) (pst : PortfolioState) (opp : Opp),
      0 < opp.magnitude →
      calculate_position_size cfg pst opp =
        max 0 (min (min
          ((⌊pst.balance * cfg.max_risk_per_trade_pct / opp.magnitude⌋ : ℤ) : ℚ)
          (minLegDepth opp.legs)) ((cfg.max_contracts_per_trade : ℤ) : ℚ))) ∧
    calculate_position_size cfg0 pst0 oppC8 = 20 := by
  constructor
  · intro cfg pst opp h
    simp only [calculate_position_size, if_neg (not_le.mpr h)]
    have hd : (match opp.legs.map (fun l => l.depth) with
        | [] => (0 : ℚ)
        | d :: ds => ds.foldl min d) = minLegDepth opp.legs := rfl
    rw [hd]
    set q := pst.balance * cfg.max_risk_per_trade_pct / opp.magnitude with hq
    rcases le_or_lt 0 q with hq0 | hq0
    · rw [pyTrunc_eq_floor hq0, max_comm]
    · have h1 : ((pyTrunc q : ℤ) : ℚ) ≤ 0 := by exact_mod_cast pyTrunc_nonpos hq0
      have h2 : ((⌊q⌋ : ℤ) : ℚ) ≤ 0 := by
        have := Int.floor_le_floor hq0.le
        rw [Int.floor_zero] at this
        exact_mod_cast this
      rw [max_eq_right (le_trans (min_le_left _ _) (le_trans (min_le_left _ _) h1)),
        max_eq_left (le_trans (min_le_left _ _) (le_trans (min_le_left _ _) h2))]
  · have hp : pyTrunc (20 : ℚ) = (20 : ℤ) := pyTrunc_eval _ 20 (by norm_num)
    simp only [calculate_position_size, oppC8, cfg0, pst0, List.map, List.foldl]
    norm_num [hp, min_def, max_def]

/-- C8 witness: the formula clause instantiated at the end-to-end
scenario's inputs. -/
theorem position_size_formula_witness :
    (0 : ℚ) < oppC8.magnitude ∧
    calculate_position_size cfg0 pst0 oppC8 =
      max 0 (min (min
        ((⌊pst0.balance * cfg0.max_risk_per_trade_pct / oppC8.magnitude⌋ : ℤ) : ℚ)
        (minLegDepth oppC8.legs)) ((cfg0.max_contracts_per_trade : ℤ) : ℚ)) :=
  ⟨by norm_num [oppC8], position_size_formula.1 cfg0 pst0 oppC8 (by norm_num [oppC8])⟩

/-- A zero-magnitude variant of the shared opportunity. -/
def oppC9zero : Opp := { oppC8 with magnitude := 0 }

/-- A configuration with a (pathological) negative risk fraction. -/
def cfgNegPct : PortfolioCfg := { cfg0 with max_risk_per_trade_pct := -1 }

/-- A deep-legged opportunity with magnitude 1. -/
def oppC9deep : Opp := { oppC8 with
  magnitude := 1
  legs := [{ ticker := "A", side := "buy", price := 1/2, depth := 50 }] }

/-- A portfolio state with balance −50. -/
def pstNegBal : PortfolioState := { pst0 with balance := -50 }

/-- A portfolio state with balance 1. -/
def pstOneBal : PortfolioState := { pst0 with balance := 1 }

/-- C9 counterexample: position sizing is not globally monotone.  At the
magnitude pair `0 ≤ 0.1` the size jumps from 0 to 20 (the magnitude-zero
guard breaks non-increase), and with a negative risk fraction a larger
balance shrinks the size from 50 to 0 (so balance-monotonicity needs a
non-negative risk fraction). -/
theorem position_size_monotonicity_counterexample :
    (oppC9zero.magnitude ≤ oppC8.magnitude ∧
      calculate_position_size cfg0 pst0 oppC9zero = 0 ∧
      calculate_position_size cfg0 pst0 oppC8 = 20 ∧
      ¬ calculate_position_size cfg0 pst0 oppC8 ≤
          calculate_position_size cfg0 pst0 oppC9zero) ∧
    (pstNegBal.balance ≤ pstOneBal.balance ∧
      calculate_position_size cfgNegPct pstNegBal oppC9deep = 50 ∧
      calculate_position_size cfgNegPct pstOneBal oppC9deep = 0 ∧
      ¬ calculate_position_size cfgNegPct pstNegBal oppC9deep ≤
          calculate_position_size cfgNegPct pstOneBal oppC9deep) := by
  have hzero : calculate_position_size cfg0 pst0 oppC9zero = 0 := by
    simp only [calculate_position_size, oppC9zero, oppC8]
    norm_num
  have h20 : calculate_position_size cfg0 pst0 oppC8 = 20 := by
    have hp : pyTrunc (20 : ℚ) = (20 : ℤ) := pyTrunc_eval _ 20 (by norm_num)
    simp only [calculate_position_size, oppC8, cfg0, pst0, List.map, List.foldl]
    norm_num [hp, min_def, max_def]
  have h50 : calculate_position_size cfgNegPct pstNegBal oppC9deep = 50 := by
    have hp : pyTrunc (50 : ℚ) = (50 : ℤ) := pyTrunc_eval _ 50 (by norm_num)
    simp only [calculate_position_size, oppC9deep, oppC8, cfgNegPct, cfg0, pstNegBal,
      pst0, List.map, List.foldl]
    norm_num [hp, min_def, max_def]
  have h0 : calculate_position_size cfgNegPct pstOneBal oppC9deep = 0 := by
    have hp : pyTrunc (-1 : ℚ) = (-1 : ℤ) := pyTrunc_eval _ (-1) (by norm_num)
    simp only [calculate_position_size, oppC9deep, oppC8, cfgNegPct, cfg0, pstOneBal,
      pst0, List.map, List.foldl]
    norm_num [hp, min_def, max_def]
  refine ⟨⟨by norm_num [oppC9zero, oppC8], hzero, h20, ?_⟩,
    ⟨by norm_num [pstNegBal, pstOneBal, pst0], h50, h0, ?_⟩⟩
  · rw [hzero, h20]; norm_num
  · rw [h50, h0]; norm_num

/-- C9 amended: with everything else fixed, the position size is monotone
non-increasing over *positive* magnitudes, and — provided the configured
risk fraction is non-negative, as every shipped configuration has it —
monotone non-decreasing in the balance. -/
theorem position_size_monotone :
    (∀ (cfg : PortfolioCfg) (pst : PortfolioState) (opp : Opp) (m1 m2 : ℚ),
        0 < m1 → m1 ≤ m2 →
        calculate_position_size cfg pst { opp with magnitude := m2 } ≤
          calculate_position_size cfg pst { opp with magnitude := m1 }) ∧
    (∀ (cfg : PortfolioCfg) (pst : PortfolioState) (opp : Opp) (b1 b2 : ℚ),
        0 ≤ cfg.max_risk_per_trade_pct → b1 ≤ b2 →
        calculate_position_size cfg { pst with balance := b1 } opp ≤
          calculate_position_size cfg { pst with balance := b2 } opp) := by
  constructor
  · intro cfg pst opp m1 m2 hm1 h12
    have hm2 : 0 < m2 := lt_of_lt_of_le hm1 h12
    simp only [calculate_position_size, if_neg (not_le.mpr hm1), if_neg (not_le.mpr hm2)]
    set B := pst.balance * cfg.max_risk_per_trade_pct with hB
    rcases le_or_lt 0 B with hB0 | hB0
    · have hq : B / m2 ≤ B / m1 := by
        rw [div_eq_mul_inv, div_eq_mul_inv]
        exact mul_le_mul_of_nonneg_left (by
          exact inv_anti₀ hm1 h12) hB0
      have ht : ((pyTrunc (B / m2) : ℤ) : ℚ) ≤ ((pyTrunc (B / m1) : ℤ) : ℚ) := by
        exact_mod_cast pyTrunc_mono hq
      exact max_le_max (min_le_min (min_le_min ht le_rfl) le_rfl) le_rfl
    · have hq2 : B / m2 < 0 := div_neg_of_neg_of_pos hB0 hm2
      have ht : ((pyTrunc (B / m2) : ℤ) : ℚ) ≤ 0 := by
        exact_mod_cast pyTrunc_nonpos hq2
      rw [max_eq_right (le_trans (min_le_left _ _) (le_trans (min_le_left _ _) ht))]
      exact le_max_right _ _
  · intro cfg pst opp b1 b2 hpct hb
    rcases le_or_lt opp.magnitude 0 with hm | hm
    · simp only [calculate_position_size, if_pos hm, le_refl]
    · simp only [calculate_position_size, if_neg (not_le.mpr hm)]
      have h1 : b1 * cfg.max_risk_per_trade_pct ≤ b2 * cfg.max_risk_per_trade_pct :=
        mul_le_mul_of_nonneg_right hb hpct
      have hq : b1 * cfg.max_risk_per_trade_pct / opp.magnitude ≤
          b2 * cfg.max_risk_per_trade_pct / opp.magnitude := by
        exact div_le_div_of_nonneg_right h1 hm.le
      have ht : ((pyTrunc (b1 * cfg.max_risk_per_trade_pct / opp.magnitude) : ℤ) : ℚ) ≤
          ((pyTrunc (b2 * cfg.max_risk_per_trade_pct / opp.magnitude) : ℤ) : ℚ) := by
        exact_mod_cast pyTrunc_mono hq
      exact max_le_max (min_le_min (min_le_min ht le_rfl) le_rfl) le_rfl

/-- C9 amended witness: the monotonicity clauses instantiated at concrete
magnitudes 0.1 ≤ 0.2 and balances 100 ≤ 200. -/
theorem position_size_monotone_witness :
    ((0 : ℚ) < 1/10 ∧ (1/10 : ℚ) ≤ 2/10 ∧
      calculate_position_size cfg0 pst0 { oppC8 with magnitude := 2/10 } ≤
        calculate_position_size cfg0 pst0 { oppC8 with magnitude := 1/10 }) ∧
    ((0 : ℚ) ≤ cfg0.max_risk_per_trade_pct ∧ (100 : ℚ) ≤ 200 ∧
      calculate_position_size cfg0 { pst0 with balance := 100 } oppC8 ≤
        calculate_position_size cfg0 { pst0 with balance := 200 } oppC8) :=
  ⟨⟨by norm_num, by norm_num,
      position_size_monotone.1 cfg0 pst0 oppC8 (1/10) (2/10) (by norm_num) (by norm_num)⟩,
    ⟨by norm_num [cfg0], by norm_num,
      position_size_monotone.2 cfg0 pst0 oppC8 100 200 (by norm_num [cfg0]) (by norm_num)⟩⟩

lemma can_trade_eq_false (cfg : PortfolioCfg) (pst : PortfolioState)
    (h : pst.kill_switch = true ∨ pst.daily_pnl ≤ -cfg.max_daily_loss ∨
      cfg.max_open_positions ≤ pst.open_positions) :
    can_trade cfg pst = false := by
  unfold can_trade
  split_ifs with h1 h2 h3
  · rfl
  · rfl
  · rfl
  · rcases h with h | h | h
    · exact absurd h (by simpa using h1)
    · exact absurd h h2
    · exact absurd h h3

/-- C2: whenever the portfolio guard refuses — kill switch on, daily loss
ceiling reached, position cap reached, or a non-positive computed size —
`execute_opportunity` returns false having written no trade row, placed no
order, and recorded no status transition (in particular the opportunity is
never moved to EXECUTING). -/
theorem guard_refusal_no_side_effects (ex : Exchange) (dryRun : Bool)
    (cfg : PortfolioCfg) (pst : PortfolioState) (opp : Opp)
    (h : pst.kill_switch = true ∨ pst.daily_pnl ≤ -cfg.max_daily_loss ∨
      cfg.max_open_positions ≤ pst.open_positions ∨
      calculate_position_size cfg pst opp ≤ 0) :
    (execute_opportunity ex dryRun cfg pst opp).1 = false ∧
    (execute_opportunity ex dryRun cfg pst opp).2.trades = [] ∧
    (execute_opportunity ex dryRun cfg pst opp).2.placedOrders = [] ∧
    (execute_opportunity ex dryRun cfg pst opp).2.statusUpdates = [] := by
  simp only [execute_opportunity]
  by_cases hLegs : opp.legs.isEmpty = true
  · rw [if_pos hLegs]
    exact ⟨rfl, rfl, rfl, rfl⟩
  · rw [if_neg hLegs]
    by_cases hct : can_trade cfg pst = true
    · have hsize : calculate_position_size cfg pst opp ≤ 0 := by
        rcases h with h | h | h | h
        · exact absurd (can_trade_eq_false cfg pst (Or.inl h)) (by simp [hct])
        · exact absurd (can_trade_eq_false cfg pst (Or.inr (Or.inl h))) (by simp [hct])
        · exact absurd (can_trade_eq_false cfg pst (Or.inr (Or.inr h))) (by simp [hct])
        · exact h
      rw [if_neg (by simp [hct]), if_pos hsize]
      exact ⟨rfl, rfl, rfl, rfl⟩
    · rw [if_pos (by simp [hct])]
      exact ⟨rfl, rfl, rfl, rfl⟩

/-- A stub exchange on which every call fails; dry-run paths never touch
it. -/
def exStub : Exchange :=
  { placeResult := fun _ => none, placeStatus := fun _ => "pending"
    finalStatus := fun _ => none, filledCount := fun _ => none }

/-- The shared portfolio state with the kill switch armed. -/
def pstKill : PortfolioState := { pst0 with kill_switch := true }

/-- C2 witness: with the kill switch armed the refusal fires on a concrete
opportunity. -/
theorem guard_refusal_no_side_effects_witness :
    (pstKill.kill_switch = true ∨ pstKill.daily_pnl ≤ -cfg0.max_daily_loss ∨
      cfg0.max_open_positions ≤ pstKill.open_positions ∨
      calculate_position_size cfg0 pstKill oppC8 ≤ 0) ∧
    ((execute_opportunity exStub true cfg0 pstKill oppC8).1 = false ∧
     (execute_opportunity exStub true cfg0 pstKill oppC8).2.trades = [] ∧
     (execute_opportunity exStub true cfg0 pstKill oppC8).2.placedOrders = [] ∧
     (execute_opportunity exStub true cfg0 pstKill oppC8).2.statusUpdates = []) :=
  ⟨Or.inl rfl, guard_refusal_no_side_effects exStub true cfg0 pstKill oppC8 (Or.inl rfl)⟩

/-- The shared two-leg opportunity already marked FILLED. -/
def oppC5 : Opp := { oppC8 with status := "FILLED" }

/-- C5 counterexample: re-running the executor on an already-FILLED
opportunity is not a no-op.  On a concrete FILLED two-leg opportunity
(dry-run, guards passing) `execute_opportunity` succeeds again, writes two
fresh trade rows and records the EXECUTING → FILLED transitions. -/
theorem filled_reexecution_counterexample :
    oppC5.status = "FILLED" ∧
    (execute_opportunity exStub true cfg0 pst0 oppC5).1 = true ∧
    (execute_opportunity exStub true cfg0 pst0 oppC5).2.trades.length = 2 ∧
    (execute_opportunity exStub true cfg0 pst0 oppC5).2.statusUpdates =
      [(1, "EXECUTING"), (1, "FILLED")] := by
  have hct : can_trade cfg0 pst0 = true := by
    norm_num [can_trade, cfg0, pst0]
  have hp20 : pyTrunc (20 : ℚ) = (20 : ℤ) := pyTrunc_eval _ 20 (by norm_num)
  have hp65 : pyTrunc (65 : ℚ) = (65 : ℤ) := pyTrunc_eval _ 65 (by norm_num)
  have hsize : calculate_position_size cfg0 pst0 oppC5 = 20 := by
    simp only [calculate_position_size, oppC5, oppC8, cfg0, pst0, List.map, List.foldl]
    norm_num [hp20, min_def, max_def]
  refine ⟨rfl, ?_⟩
  simp only [oppC5, oppC8] at hsize
  simp only [execute_opportunity, hct, hsize, oppC5, oppC8, _execute_two_leg,
    _two_leg_rest, _place_leg, insertTrade, recordStatus, ExecState.empty]
  norm_num [hp65, List.length,
    show ¬("BUY_SUPERSET_SELL_SUBSET" = "BUY_ALL_PARTITION") from by decide,
    show ¬("BUY_SUPERSET_SELL_SUBSET" = "SELL_ALL_PARTITION") from by decide,
    show ¬("sell" = "buy") from by decide]

/-- C5 amended: `execute_opportunity` never consults the opportunity's
stored status — its result and side effects are identical for any stored
status, so a FILLED opportunity is re-executed like a fresh one (it is a
no-op only when a guard refuses). -/
theorem execute_ignores_status (ex : Exchange) (dryRun : Bool)
    (cfg : PortfolioCfg) (pst : PortfolioState) (opp : Opp) (st : String) :
    execute_opportunity ex dryRun cfg pst { opp with status := st } =
      execute_opportunity ex dryRun cfg pst opp := rfl

/-- A well-formed SUBSET proposal whose subset ticker sorts after its
superset ticker. -/
def rawC1 : RawProposal :=
  { type := "SUBSET", subset_ticker := some "ZSUB", superset_ticker := some "ASUP"
    tickers_ascending := [], tickers := [], if_ticker := none, then_ticker := none
    estimated_conditional_prob := none, confidence := some (9/10)
    reasoning := "ZSUB is a strict subset of ASUP" }

/-- C1: the normaliser orients the SUBSET pair as `[subset, superset]`,
but the storage step of `discover_relationships` writes
`sorted(tickers)`: for the proposal (subset ZSUB, superset ASUP) the row
stored is `["ASUP", "ZSUB"]`, not the claimed `["ZSUB", "ASUP"]` — so the
detector, which reads `tickers[0]` as the subset, sees the orientation
reversed. -/
theorem subset_storage_loses_orientation :
    (_normalise_relationship rawC1).map (fun n => n.tickers) = some ["ZSUB", "ASUP"] ∧
    (stored_relationship rawC1).map (fun n => n.tickers) = some ["ASUP", "ZSUB"] ∧
    (["ASUP", "ZSUB"] : List String) ≠ ["ZSUB", "ASUP"] := by
  refine ⟨?_, ?_, by decide⟩ <;> rfl

lemma roundTo_of_mul_eq_int (q : ℚ) (n : ℕ) (m : ℤ) (h : q * 10 ^ n = (m : ℚ)) :
    roundTo q n = q := by
  have hq : q = (m : ℚ) / 10 ^ n := by
    rw [eq_div_iff (by positivity : ((10 : ℚ) ^ n) ≠ 0), h]
  have hr : roundHalfEven (q * 10 ^ n) = m := by
    rw [h]
    norm_num [roundHalfEven, Int.floor_intCast]
  rw [roundTo, hr, ← hq]

/-- The SUB market of the spec's SUBSET seed scenario: ask 0.65, bid 0.63,
open interest 50. -/
def mSUB : Market :=
  { ticker := "SUB", yes_ask := some (65/100), yes_bid := some (63/100)
    open_interest := some 50 }

/-- The SUP market of the seed scenario: ask 0.52, bid 0.50, open
interest 50. -/
def mSUP : Market :=
  { ticker := "SUP", yes_ask := some (52/100), yes_bid := some (50/100)
    open_interest := some 50 }

/-- The per-relationship markets dict for the seed scenario. -/
def msC4 : List (String × Market) := [("SUB", mSUB), ("SUP", mSUP)]

/-- C4 counterexample: on the seed scenario the detector emits one
opportunity of magnitude 0.15 (= SUB ask 0.65 − SUP bid 0.50), not the
0.13 the spec's seed lists. -/
theorem subset_seed_magnitude_counterexample :
    (_check_subset 1 ["SUB", "SUP"] msC4 (9/10) 2).map (fun o => o.magnitude) =
      [3/20] ∧ ¬ ((3/20 : ℚ) = 13/100) := by
  constructor
  · have h1 : mget msC4 "SUB" = some mSUB := rfl
    have h2 : mget msC4 "SUP" = some mSUP := rfl
    have hprof : is_profitable_after_fees (65/100 - 50/100) 1 [65/100, 50/100] 2 = true := by
      simp only [is_profitable_after_fees, List.map, List.sum_cons, List.sum_nil,
        tf_1_65, tf_1_50]
      norm_num
    simp only [_check_subset, h1, h2, mSUB, mSUP, orZero]
    rw [if_neg (by norm_num [MIN_MAGNITUDE]), if_neg (by simp [hprof])]
    simp only [List.map]
    rw [roundTo_of_mul_eq_int (65/100 - 50/100) 4 1500 (by norm_num)]
    norm_num
  · norm_num

/-- C4 amended: the seed scenario emits exactly one opportunity with
signal BUY_SUPERSET_SELL_SUBSET, magnitude 0.15, score 0.135, and legs
[buy SUP @ 0.50, sell SUB @ 0.65]. -/
theorem subset_seed_scenario :
    _check_subset 1 ["SUB", "SUP"] msC4 (9/10) 2 =
      [{ id := none, relationship_id := 1, signal := "BUY_SUPERSET_SELL_SUBSET"
         magnitude := 3/20, confidence := 9/10, score := 27/200
         legs := [{ ticker := "SUP", side := "buy", price := 50/100, depth := 50 },
                  { ticker := "SUB", side := "sell", price := 65/100, depth := 50 }]
         status := "DETECTED" }] := by
  have h1 : mget msC4 "SUB" = some mSUB := rfl
  have h2 : mget msC4 "SUP" = some mSUP := rfl
  have hprof : is_profitable_after_fees (65/100 - 50/100) 1 [65/100, 50/100] 2 = true := by
    simp only [is_profitable_after_fees, List.map, List.sum_cons, List.sum_nil,
      tf_1_65, tf_1_50]
    norm_num
  simp only [_check_subset, h1, h2, mSUB, mSUP, orZero]
  rw [if_neg (by norm_num [MIN_MAGNITUDE]), if_neg (by simp [hprof])]
  simp only [oiD, orDefaultDepth, Option.getD]
  rw [roundTo_of_mul_eq_int (65/100 - 50/100) 4 1500 (by norm_num)]
  norm_num [Opp.mk.injEq, Leg.mk.injEq, min_def]
  rw [roundTo_of_mul_eq_int _ 6 135000 (by norm_num [min_def])]

/-- The trade row a live `_place_leg` returns for a leg (the returned row
does not depend on the running state): `none` exactly when the placement
raised. -/
def liveTrade (ex : Exchange) (opp : Opp) (count : ℚ) (leg : Leg) : Option Trade :=
  (ex.placeResult leg).map (fun oid =>
    { opportunity_id := opp.id, ticker := leg.ticker, side := "yes"
      action := if leg.side = "buy" then "buy" else "sell"
      price := leg.price, count := count, order_id := oid
      order_status := ex.placeStatus leg, filled_count := 0
      fees := taker_fee count leg.price })

lemma place_leg_live_fst (ex : Exchange) (opp : Opp) (leg : Leg) (count : ℚ)
    (s : ExecState) :
    (_place_leg ex false opp leg count s).1 = liveTrade ex opp count leg := by
  simp only [_place_leg, liveTrade, Bool.false_eq_true, if_false]
  cases ex.placeResult leg <;> rfl

lemma multi_leg_orders (ex : Exchange) (opp : Opp) (count : ℚ) :
    ∀ (legs : List Leg) (acc : List Trade) (s : ExecState),
      (legs.foldl (fun (acc : List Trade × ExecState) leg =>
        match _place_leg ex false opp leg count acc.2 with
        | (some t, s2) => (acc.1 ++ [t], s2)
        | (none, s2) => (acc.1, s2)) (acc, s)).1 =
      acc ++ legs.filterMap (liveTrade ex opp count) := by
  intro legs
  induction legs with
  | nil => intro acc s; simp
  | cons l ls ih =>
    intro acc s
    simp only [List.foldl_cons, List.filterMap_cons]
    have hfst := place_leg_live_fst ex opp l count s
    cases hpl : _place_leg ex false opp l count s with
    | mk fst snd =>
      rw [hpl] at hfst
      simp only at hfst
      cases hlt : liveTrade ex opp count l with
      | none =>
        rw [hlt] at hfst
        subst hfst
        rw [ih]
      | some t =>
        rw [hlt] at hfst
        subst hfst
        rw [ih]
        simp

/-- C3 amended: a live multi-leg (PARTITION) execution succeeds iff at
least one leg was placed and every *successfully placed* leg reports
"filled" — legs whose placement raised are silently excluded from the
success test, so an opportunity can be marked FILLED although one of its
legs was never executed. -/
theorem multi_leg_live_success_iff (ex : Exchange) (opp : Opp) (legs : List Leg)
    (count : ℚ) (s : ExecState) :
    (_execute_multi_leg ex false opp legs count s).1 = true ↔
      (legs.filter (fun l => (ex.placeResult l).isSome) ≠ [] ∧
       ∀ l ∈ legs, ∀ oid, ex.placeResult l = some oid →
         ex.finalStatus oid = some "filled") := by
  have hnone : ∀ l, liveTrade ex opp count l = none ↔ ex.placeResult l = none := by
    intro l
    simp [liveTrade]
  simp only [_execute_multi_leg, multi_leg_orders ex opp count legs [] s,
    List.nil_append, Bool.false_eq_true, if_false]
  by_cases hemp : legs.filterMap (liveTrade ex opp count) = []
  · have hfilter : legs.filter (fun l => (ex.placeResult l).isSome) = [] := by
      rw [List.filter_eq_nil_iff]
      intro l hl
      have := (List.filterMap_eq_nil_iff.mp hemp) l hl
      simp [Option.isSome_iff_exists, (hnone l).mp this]
    simp [hemp, hfilter]
  · have hne : legs.filter (fun l => (ex.placeResult l).isSome) ≠ [] := by
      intro hfil
      apply hemp
      rw [List.filterMap_eq_nil_iff]
      intro l hl
      have := (List.filter_eq_nil_iff.mp hfil) l hl
      rw [hnone l]
      simpa using this
    have hisEmpty : (legs.filterMap (liveTrade ex opp count)).isEmpty = false := by
      simpa [List.isEmpty_iff] using hemp
    simp only [hisEmpty, Bool.false_eq_true, if_false, decide_eq_true_eq]
    constructor
    · intro hlen
      refine ⟨hne, ?_⟩
      intro l hl oid hoid
      have hlt : liveTrade ex opp count l =
          some { opportunity_id := opp.id, ticker := l.ticker, side := "yes",
                 action := if l.side = "buy" then "buy" else "sell", price := l.price,
                 count := count, order_id := oid, order_status := ex.placeStatus l,
                 filled_count := 0, fees := taker_fee count l.price } := by
        simp [liveTrade, hoid]
      have hmem := List.mem_filterMap.mpr ⟨l, hl, hlt⟩
      have hall := List.filter_length_eq_length.mp hlen _ hmem
      simpa [_check_order_status] using hall
    · rintro ⟨-, hfill⟩
      apply List.filter_length_eq_length.mpr
      intro o ho2
      rcases List.mem_filterMap.mp ho2 with ⟨l, hl, hlt⟩
      rcases Option.map_eq_some'.mp hlt with ⟨oid, hoid, hmk⟩
      have := hfill l hl oid hoid
      subst hmk
      simpa [_check_order_status] using this

/-- An exchange on which placing the "A" leg raises while the "B" leg
places and fills. -/
def exC3 : Exchange :=
  { placeResult := fun l => if l.ticker = "B" then some "ORD-B" else none
    placeStatus := fun _ => "pending"
    finalStatus := fun oid => if oid = "ORD-B" then some "filled" else none
    filledCount := fun _ => some 5 }

/-- A two-leg PARTITION opportunity over markets A and B. -/
def oppC3 : Opp :=
  { id := some 7, relationship_id := 3, signal := "BUY_ALL_PARTITION"
    magnitude := 1/10, confidence := 9/10, score := 1/20
    legs := [{ ticker := "A", side := "buy", price := 30/100, depth := 20 },
             { ticker := "B", side := "buy", price := 30/100, depth := 20 }]
    status := "DETECTED" }

/-- C3 counterexample: a live PARTITION execution in which leg A's
placement raises and only leg B fills returns true and marks the
opportunity FILLED — with a single trade row for its two legs — although
leg A never filled, where the claim demands false and FAILED. -/
theorem partition_fill_counterexample :
    oppC3.legs.length = 2 ∧
    (execute_opportunity exC3 false cfg0 pst0 oppC3).1 = true ∧
    (execute_opportunity exC3 false cfg0 pst0 oppC3).2.statusUpdates =
      [(7, "EXECUTING"), (7, "FILLED")] ∧
    (execute_opportunity exC3 false cfg0 pst0 oppC3).2.trades.length = 1 := by
  have hct : can_trade cfg0 pst0 = true := by
    norm_num [can_trade, cfg0, pst0]
  have hp20 : pyTrunc (20 : ℚ) = (20 : ℤ) := pyTrunc_eval _ 20 (by norm_num)
  have hsize : calculate_position_size cfg0 pst0 oppC3 = 20 := by
    simp only [calculate_position_size, oppC3, cfg0, pst0, List.map, List.foldl]
    norm_num [hp20, min_def, max_def]
  refine ⟨rfl, ?_⟩
  simp only [oppC3] at hsize
  simp only [execute_opportunity, hct, hsize, oppC3, exC3, _execute_multi_leg,
    _place_leg, insertTrade, recordStatus, cancelOrder, _check_order_status,
    ExecState.empty, List.foldl, List.filter, List.isEmpty]
  norm_num [show ¬(("A" : String) = "B") from by decide, List.length]

/-- Forget the serial id `insert_opportunity` assigned. -/
def stripId (o : Opp) : Opp := { o with id := none }

lemma scan_inner_fold (opps : List Opp) :
    ∀ (st : List Opp × ℕ),
      ((opps.foldl (fun st o => (st.1 ++ [{o with id := some st.2}], st.2 + 1)) st).1).map stripId =
        (st.1).map stripId ++ opps.map stripId := by
  induction opps with
  | nil => intro st; simp
  | cons o os ih =>
    intro st
    simp only [List.foldl_cons, List.map_cons]
    rw [ih]
    simp [stripId]

lemma scan_outer_fold (market : String → Option Market) (m f : ℚ) (rels : List Rel) :
    ∀ (st : List Opp × ℕ),
      ((rels.foldl (scanStep market m f) st).1).map stripId =
        (st.1).map stripId ++
          (rels.map (fun rel => (scanRel market m f rel).map stripId)).flatten := by
  induction rels with
  | nil => intro st; simp
  | cons r rs ih =>
    intro st
    simp only [List.foldl_cons, List.map_cons, List.flatten]
    rw [ih, scanStep, scan_inner_fold]
    simp [List.append_assoc]

/-- C7 amended: `scan_for_violations` returns the surviving violations in
relationship-iteration order — the concatenation, over the active
relationships in row order, of each relationship's score-filtered
emissions (up to the serial ids handed out on insertion).  No sort by
descending score is applied before returning. -/
theorem scan_emission_order (db : DetectorDB) (min_score safety : ℚ) :
    (scan_for_violations db min_score safety).map stripId =
      (db.relationships.map (fun rel =>
        (scanRel db.market min_score safety rel).map stripId)).flatten := by
  rw [scan_for_violations, scan_outer_fold]
  simp

/-- Markets for the two-relationship scan scenario: S1 ⊂ P1 with a small
violation. -/
def mS1 : Market :=
  { ticker := "S1", yes_ask := some (30/100), yes_bid := some (28/100)
    open_interest := some 50 }

/-- P1, the superset of S1. -/
def mP1 : Market :=
  { ticker := "P1", yes_ask := some (22/100), yes_bid := some (20/100)
    open_interest := some 50 }

/-- S2 ⊂ P2 with a large violation. -/
def mS2 : Market :=
  { ticker := "S2", yes_ask := some (65/100), yes_bid := some (63/100)
    open_interest := some 50 }

/-- P2, the superset of S2. -/
def mP2 : Market :=
  { ticker := "P2", yes_ask := some (42/100), yes_bid := some (40/100)
    open_interest := some 50 }

/-- The markets table for the scan scenario. -/
def dbC7get : String → Option Market := fun t =>
  if t = "S1" then some mS1 else
  if t = "P1" then some mP1 else
  if t = "S2" then some mS2 else
  if t = "P2" then some mP2 else none

/-- The first (low-score) SUBSET relationship row. -/
def relC7a : Rel :=
  { id := 1, type := "SUBSET", tickers := ["S1", "P1"], confidence := some (9/10) }

/-- The second (high-score) SUBSET relationship row. -/
def relC7b : Rel :=
  { id := 2, type := "SUBSET", tickers := ["S2", "P2"], confidence := some (9/10) }

/-- The detector store scanned in the C7 scenario. -/
def dbC7 : DetectorDB :=
  { relationships := [relC7a, relC7b], market := dbC7get, nextOppId := 10 }

lemma scanRel_C7a : scanRel dbC7get (1/100) 2 relC7a =
    [{ id := none, relationship_id := 1, signal := "BUY_SUPERSET_SELL_SUBSET"
       magnitude := 10/100, confidence := 9/10, score := 9/100
       legs := [{ ticker := "P1", side := "buy", price := 20/100, depth := 50 },
                { ticker := "S1", side := "sell", price := 30/100, depth := 50 }]
       status := "DETECTED" }] := by
  have hb : buildMarkets ["S1", "P1"] dbC7get = [("S1", mS1), ("P1", mP1)] := rfl
  have h1 : mget [("S1", mS1), ("P1", mP1)] "S1" = some mS1 := rfl
  have h2 : mget [("S1", mS1), ("P1", mP1)] "P1" = some mP1 := rfl
  have hprof : is_profitable_after_fees (30/100 - 20/100) 1 [30/100, 20/100] 2 = true := by
    simp only [is_profitable_after_fees, List.map, List.sum_cons, List.sum_nil,
      tf_1_30, tf_1_20]
    norm_num
  simp only [scanRel, relC7a, hb]
  rw [if_neg (by norm_num)]
  simp only [dispatchCheck]
  simp only [if_true]
  simp only [_check_subset]
  rw [h1, h2]
  simp only [mS1, mP1, orZero]
  rw [if_neg (by norm_num [MIN_MAGNITUDE]), if_neg (by simp [hprof])]
  simp only [oiD, orDefaultDepth, Option.getD]
  rw [roundTo_of_mul_eq_int (30/100 - 20/100) 4 1000 (by norm_num),
    roundTo_of_mul_eq_int _ 6 90000 (by norm_num [min_def])]
  norm_num [List.filter_cons, List.filter_nil, Opp.mk.injEq, Leg.mk.injEq, min_def]

lemma scanRel_C7b : scanRel dbC7get (1/100) 2 relC7b =
    [{ id := none, relationship_id := 2, signal := "BUY_SUPERSET_SELL_SUBSET"
       magnitude := 25/100, confidence := 9/10, score := 9/40
       legs := [{ ticker := "P2", side := "buy", price := 40/100, depth := 50 },
                { ticker := "S2", side := "sell", price := 65/100, depth := 50 }]
       status := "DETECTED" }] := by
  have hb : buildMarkets ["S2", "P2"] dbC7get = [("S2", mS2), ("P2", mP2)] := rfl
  have h1 : mget [("S2", mS2), ("P2", mP2)] "S2" = some mS2 := rfl
  have h2 : mget [("S2", mS2), ("P2", mP2)] "P2" = some mP2 := rfl
  have hprof : is_profitable_after_fees (65/100 - 40/100) 1 [65/100, 40/100] 2 = true := by
    simp only [is_profitable_after_fees, List.map, List.sum_cons, List.sum_nil,
      tf_1_65, tf_1_40]
    norm_num
  simp only [scanRel, relC7b, hb]
  rw [if_neg (by norm_num)]
  simp only [dispatchCheck]
  simp only [if_true]
  simp only [_check_subset]
  rw [h1, h2]
  simp only [mS2, mP2, orZero]
  rw [if_neg (by norm_num [MIN_MAGNITUDE]), if_neg (by simp [hprof])]
  simp only [oiD, orDefaultDepth, Option.getD]
  rw [roundTo_of_mul_eq_int (65/100 - 40/100) 4 2500 (by norm_num),
    roundTo_of_mul_eq_int _ 6 225000 (by norm_num [min_def])]
  norm_num [List.filter_cons, List.filter_nil, Opp.mk.injEq, Leg.mk.injEq, min_def]

/-- C7 counterexample: scanning a store whose first relationship yields
score 0.09 and whose second yields 0.225 returns the scores in iteration
order [0.09, 0.225] — not sorted by descending score, since the second
exceeds the first. -/
theorem scan_not_sorted_counterexample :
    (scan_for_violations dbC7 (1/100) 2).map (fun o => o.score) = [9/100, 9/40] ∧
    ¬ ((9/40 : ℚ) ≤ 9/100) := by
  constructor
  · simp only [scan_for_violations, dbC7, List.foldl_cons, List.foldl_nil, scanStep,
      scanRel_C7a, scanRel_C7b, List.map]
  · norm_num

end Kalshibot
